import Mathlib

/-
Shallow embedding of the `indexedproperty` Python package
(src/indexedproperty/__init__.py).

The package provides property-like descriptors whose attribute access
returns a short-lived `Trampoline` object implementing `__getitem__`,
`__setitem__` and `__delitem__` by dispatching to user-registered
handler functions, with broadcasting over iterable index sets.

Modelling conventions:
  * Python exceptions are the inductive `PyErr`
    (spec names: LengthMismatch = ValueError, OutOfRange = IndexError,
     NotFound = KeyError, Unsupported = AttributeError for addmethod,
     InvalidStep = ValueError raised by `range(..., 0)`).
  * Values passed to setters are `PyVal`: a text string (`isinstance(value,
    str)` holds), a sized non-text sequence (`len(value)` works), or a
    plain object with no `len` (`len(value)` raises TypeError).
  * Indices are `PyIndex`: a single scalar, a list, a tuple, a concrete
    `range` object (materialised as its element list), or a `slice`.
  * Each Trampoline variant is a `TConfig`: its `moduserindex` hook, its
    `iterable_indices` membership test (returning the element sequence
    when the index is iterable), and its `modindex` hook, all translated
    from the corresponding Python class.
  * `getitem` / `setitem` / `delitem` return the ordered trace of handler
    invocations actually performed (argument pairs, in call order)
    together with the outcome, so that "which handler calls happened, in
    which order" is directly observable.
  * Handlers: getters are `PyIndex → PyVal`; setters and deleters may
    raise, returning `some e` for an exception `e`.
-/

namespace Ixp

/-- Python exception kinds that occur in the embedded code paths. -/
inductive PyErr
  | typeError
  | valueError
  | indexError
  | keyError
  | attributeError
  deriving DecidableEq

/-- A single (non-iterable) index value: an integer or a string key. -/
inductive Scalar
  | int (n : Int)
  | str (s : String)
  deriving DecidableEq

/-- A Python value, classified by how `isinstance(value, str)` and
`len(value)` behave, which is all `Trampoline.__setitem__` inspects:
`text` is a str (sized but explicitly excluded from pairing), `seq` is a
sized non-text iterable, `nolen` is a value for which `len` raises
TypeError. -/
inductive PyVal
  | text (s : String)
  | seq (xs : List Scalar)
  | nolen (n : Int)
  deriving DecidableEq

/-- A sequence element, viewed again as a Python value when handed to a
setter during element-wise pairing. -/
def Scalar.toVal : Scalar → PyVal
  | .int n => PyVal.nolen n
  | .str s => PyVal.text s

/-- The thing written between the `[]` brackets: a single value, a list,
a tuple, a concrete `range` object (kept as its element list), or a
`slice(b, e, s)` with optional components. -/
inductive PyIndex
  | single (a : Scalar)
  | ilist (xs : List Scalar)
  | ituple (xs : List Scalar)
  | irange (ns : List Int)
  | islice (b e s : Option Int)
  deriving DecidableEq

/-- Result of `Trampoline.__getitem__`: one value for a single index, a
list of values for an iterable index. -/
inductive GetResult
  | one (v : PyVal)
  | many (vs : List PyVal)
  deriving DecidableEq

/-- The per-variant behaviour of a Trampoline: the `moduserindex` hook,
the `isinstance(index, self.iterable_indices)` test (returning the
element sequence when it holds), and the `modindex` hook. -/
structure TConfig where
  moduserindex : PyIndex → Except PyErr PyIndex
  iterElems : PyIndex → Option (List Scalar)
  modindex : PyIndex → Except PyErr PyIndex

/-- Equality of `Except` outcomes is decidable, so concrete runs of the
embedded operations can be checked by evaluation. -/
instance {ε α : Type} [DecidableEq ε] [DecidableEq α] : DecidableEq (Except ε α) := fun a b =>
  match a, b with
  | Except.ok x, Except.ok y =>
    if h : x = y then isTrue (by rw [h])
    else isFalse (fun hh => h (Except.ok.inj hh))
  | Except.error e, Except.error f =>
    if h : e = f then isTrue (by rw [h])
    else isFalse (fun hh => h (Except.error.inj hh))
  | Except.ok _, Except.error _ => isFalse (fun hh => Except.noConfusion hh)
  | Except.error _, Except.ok _ => isFalse (fun hh => Except.noConfusion hh)

/-- The list comprehension `[fget(self.modindex(i)) for i in index]`:
per element, `modindex` then the getter; an exception from `modindex`
aborts the comprehension, keeping earlier getter calls in the trace. -/
def getEach (modindex : PyIndex → Except PyErr PyIndex) (fget : PyIndex → PyVal) :
    List Scalar → List PyIndex × Except PyErr (List PyVal)
  | [] => ([], Except.ok [])
  | a :: rest =>
    match modindex (PyIndex.single a) with
    | Except.error e => ([], Except.error e)
    | Except.ok j =>
      let v := fget j
      let (tr, r) := getEach modindex fget rest
      (j :: tr, match r with
        | Except.error e => Except.error e
        | Except.ok vs => Except.ok (v :: vs))

/-- `Trampoline.__getitem__`: apply `moduserindex`, broadcast over the
elements when the index is an `iterable_indices` instance, otherwise a
single `fget(self.modindex(index))` call.  Returns the ordered trace of
getter invocations and the outcome. -/
def getitem (cfg : TConfig) (fget : PyIndex → PyVal) (index : PyIndex) :
    List PyIndex × Except PyErr GetResult :=
  match cfg.moduserindex index with
  | Except.error e => ([], Except.error e)
  | Except.ok index1 =>
    match cfg.iterElems index1 with
    | some elems =>
      let (tr, r) := getEach cfg.modindex fget elems
      (tr, r.map GetResult.many)
    | none =>
      match cfg.modindex index1 with
      | Except.error e => ([], Except.error e)
      | Except.ok j => ([j], Except.ok (GetResult.one (fget j)))

/-- The paired loop `for i, v in zip(index, value): fset(self.modindex(i), v)`.
A raising call stays in the trace; the exception is reported to the
caller (`setBroadcast`) which decides whether `except TypeError` fires. -/
def setPairs (modindex : PyIndex → Except PyErr PyIndex)
    (fset : PyIndex → PyVal → Option PyErr) :
    List (Scalar × PyVal) → List (PyIndex × PyVal) × Option PyErr
  | [] => ([], none)
  | (a, v) :: rest =>
    match modindex (PyIndex.single a) with
    | Except.error e => ([], some e)
    | Except.ok j =>
      match fset j v with
      | some e => ([(j, v)], some e)
      | none =>
        let (tr, r) := setPairs modindex fset rest
        ((j, v) :: tr, r)

/-- The scalar-broadcast loop `for i in index: fset(self.modindex(i), value)`
run inside the `except TypeError:` handler (so any exception it raises,
of any kind, propagates). -/
def setScalar (modindex : PyIndex → Except PyErr PyIndex)
    (fset : PyIndex → PyVal → Option PyErr) (value : PyVal) :
    List Scalar → List (PyIndex × PyVal) × Option PyErr
  | [] => ([], none)
  | a :: rest =>
    match modindex (PyIndex.single a) with
    | Except.error e => ([], some e)
    | Except.ok j =>
      match fset j value with
      | some e => ([(j, value)], some e)
      | none =>
        let (tr, r) := setScalar modindex fset value rest
        ((j, value) :: tr, r)

/-- The iterable-index branch of `Trampoline.__setitem__`, including its
`try`/`except TypeError` exactly as written: the `try` body raises
TypeError for a str value, evaluates `len(value)` (TypeError when the
value has no length), raises ValueError on a length mismatch, and
otherwise runs the paired loop; a TypeError escaping ANY of that —
including one raised by the setter handler itself mid-loop — triggers
the scalar-broadcast loop over the whole index set. -/
def setBroadcast (modindex : PyIndex → Except PyErr PyIndex)
    (fset : PyIndex → PyVal → Option PyErr) (elems : List Scalar) (value : PyVal) :
    List (PyIndex × PyVal) × Option PyErr :=
  let tryResult : List (PyIndex × PyVal) × Option PyErr :=
    match value with
    | PyVal.text _ => ([], some PyErr.typeError)
    | PyVal.nolen _ => ([], some PyErr.typeError)
    | PyVal.seq xs =>
      if xs.length ≠ elems.length then ([], some PyErr.valueError)
      else setPairs modindex fset (elems.zip (xs.map Scalar.toVal))
  match tryResult with
  | (tr, some PyErr.typeError) =>
    let (tr2, r) := setScalar modindex fset value elems
    (tr ++ tr2, r)
  | other => other

/-- `Trampoline.__setitem__`: apply `moduserindex`; an iterable index
goes through `setBroadcast`, a single index is one
`fset(self.modindex(index), value)` call. -/
def setitem (cfg : TConfig) (fset : PyIndex → PyVal → Option PyErr)
    (index : PyIndex) (value : PyVal) :
    List (PyIndex × PyVal) × Option PyErr :=
  match cfg.moduserindex index with
  | Except.error e => ([], some e)
  | Except.ok index1 =>
    match cfg.iterElems index1 with
    | some elems => setBroadcast cfg.modindex fset elems value
    | none =>
      match cfg.modindex index1 with
      | Except.error e => ([], some e)
      | Except.ok j => ([(j, value)], fset j value)

/-- The loop `for i in index: fdel(self.modindex(i))`. -/
def delEach (modindex : PyIndex → Except PyErr PyIndex)
    (fdel : PyIndex → Option PyErr) :
    List Scalar → List PyIndex × Option PyErr
  | [] => ([], none)
  | a :: rest =>
    match modindex (PyIndex.single a) with
    | Except.error e => ([], some e)
    | Except.ok j =>
      match fdel j with
      | some e => ([j], some e)
      | none =>
        let (tr, r) := delEach modindex fdel rest
        (j :: tr, r)

/-- `Trampoline.__delitem__`: one deleter call per element of an iterable
index, a single `fdel(self.modindex(index))` call otherwise. -/
def delitem (cfg : TConfig) (fdel : PyIndex → Option PyErr) (index : PyIndex) :
    List PyIndex × Option PyErr :=
  match cfg.moduserindex index with
  | Except.error e => ([], some e)
  | Except.ok index1 =>
    match cfg.iterElems index1 with
    | some elems => delEach cfg.modindex fdel elems
    | none =>
      match cfg.modindex index1 with
      | Except.error e => ([], some e)
      | Except.ok j => ([j], fdel j)

/-- The base `Trampoline`: `iterable_indices = ()` and both index hooks
are the identity. -/
def baseCfg : TConfig :=
  { moduserindex := fun i => Except.ok i
    iterElems := fun _ => none
    modindex := fun i => Except.ok i }

/-- `ContainerProperty._Trampoline.modindex`: `if index not in self.base:
raise KeyError(index)`.  A non-scalar index is never a member of the
(scalar-element) backing container, so it raises KeyError as well. -/
def containerModindex (base : List Scalar) : PyIndex → Except PyErr PyIndex
  | PyIndex.single a =>
    if a ∈ base then Except.ok (PyIndex.single a) else Except.error PyErr.keyError
  | _ => Except.error PyErr.keyError

/-- `ContainerProperty._Trampoline.iterable_indices = (list, tuple)`. -/
def containerIterElems : PyIndex → Option (List Scalar)
  | PyIndex.ilist xs => some xs
  | PyIndex.ituple xs => some xs
  | _ => none

/-- The `ContainerProperty` Trampoline over a backing container `base`. -/
def containerCfg (base : List Scalar) : TConfig :=
  { moduserindex := fun i => Except.ok i
    iterElems := containerIterElems
    modindex := containerModindex base }

/-- `RangeProperty._Trampoline._negativeindex`: end-relative wraparound
for negative indices, disabled when the declared range itself includes
negative numbers (`if idx >= 0 or self.start < 0: return idx` else
`return self.stop + idx`). -/
def negativeindex (start stop idx : Int) : Int :=
  if 0 ≤ idx ∨ start < 0 then idx else stop + idx

/-- `RangeProperty._Trampoline._boundindex`: wraparound, then clip into
`[start, stop]`. -/
def boundindex (start stop idx : Int) : Int :=
  let i := negativeindex start stop idx
  if i < start then start
  else if stop < i then stop
  else i

/-- Element count of Python's `range` for positive distance/step
(ceiling division computed on naturals). -/
def rangeCount (diff step : Nat) : Nat := (diff + step - 1) / step

/-- Python's `range(start, stop, step)` builtin, materialised as the
list `start, start + step, ...` strictly before (after, for a negative
step) `stop`; the empty list for a zero step (the zero-step ValueError
is raised separately by the caller). -/
def rangeList (start stop step : Int) : List Int :=
  if 0 < step then
    (List.range (rangeCount (stop - start).toNat step.toNat)).map
      (fun k : Nat => start + step * (k : Int))
  else if step < 0 then
    (List.range (rangeCount (start - stop).toNat (-step).toNat)).map
      (fun k : Nat => start + step * (k : Int))
  else []

/-- `RangeProperty._Trampoline.moduserindex`: turn a slice into a
concrete range object — absent endpoints default to `start` / `stop`,
explicit endpoints go through `_boundindex`, an absent step defaults to
1, and `range(start, stop, 0)` raises ValueError.  Anything that is not
a slice passes through unchanged. -/
def rangeModuserindex (start stop : Int) : PyIndex → Except PyErr PyIndex
  | PyIndex.islice b e s =>
    let b1 := match b with
      | none => start
      | some x => boundindex start stop x
    let e1 := match e with
      | none => stop
      | some x => boundindex start stop x
    let s1 := match s with
      | none => 1
      | some x => x
    if s1 = 0 then Except.error PyErr.valueError
    else Except.ok (PyIndex.irange (rangeList b1 e1 s1))
  | i => Except.ok i

/-- `RangeProperty._Trampoline.modindex`: `index = self._boundindex(index)`
followed by `if not self.start <= index < self.stop: raise IndexError`.
A non-integer single index raises TypeError (Python's `<` on unrelated
types inside `_boundindex`). -/
def rangeModindex (start stop : Int) : PyIndex → Except PyErr PyIndex
  | PyIndex.single (Scalar.int n) =>
    let i := boundindex start stop n
    if start ≤ i ∧ i < stop then Except.ok (PyIndex.single (Scalar.int i))
    else Except.error PyErr.indexError
  | _ => Except.error PyErr.typeError

/-- `RangeProperty._Trampoline.iterable_indices = (list, tuple, range)`. -/
def rangeIterElems : PyIndex → Option (List Scalar)
  | PyIndex.ilist xs => some xs
  | PyIndex.ituple xs => some xs
  | PyIndex.irange ns => some (ns.map Scalar.int)
  | _ => none

/-- The `RangeProperty` Trampoline over the half-open range
`[start, stop)`. -/
def rangeCfg (start stop : Int) : TConfig :=
  { moduserindex := rangeModuserindex start stop
    iterElems := rangeIterElems
    modindex := rangeModindex start stop }

/-- `IndexedProperty.illegalmethods`: the operation names `addmethod`
refuses to register. -/
def illegalmethods : List String := ["__getitem__", "__setitem__", "__delitem__"]

/-- `IndexedProperty.addmethod`: raise AttributeError for a name in
`illegal` (leaving the trampoline class dictionary untouched), otherwise
store the function under `name`, overwriting any previous binding.
Handler functions are identified by a numeric tag. -/
def addmethod (illegal : List String) (tdict : List (String × Nat))
    (name : String) (fn : Nat) : List (String × Nat) × Option PyErr :=
  if name ∈ illegal then (tdict, some PyErr.attributeError)
  else ((name, fn) :: tdict.filter (fun p => p.1 ≠ name), none)

/-- A bound Trampoline instance: it holds exactly the owning object
(`self.obj = obj` is the whole of `Trampoline.__init__`). -/
structure Trampoline (Obj : Type) where
  obj : Obj
  deriving DecidableEq

/-- `IndexedProperty.__get__`: accessed through the class (`obj is
None`) the descriptor returns itself; accessed through an instance it
returns a Trampoline constructed around that instance. -/
def descriptorGet {Desc Obj : Type} (self : Desc) (obj : Option Obj) :
    Desc ⊕ Trampoline Obj :=
  match obj with
  | none => Sum.inl self
  | some o => Sum.inr { obj := o }

/-! ### Dispatch lemmas shared by several claims -/

/-- When `moduserindex` succeeds and the resulting index is not iterable,
`__getitem__` is one `modindex` step followed by one getter call. -/
theorem getitem_single_eq (cfg : TConfig) (fget : PyIndex → PyVal) (i i1 : PyIndex)
    (hm : cfg.moduserindex i = Except.ok i1) (he : cfg.iterElems i1 = none) :
    getitem cfg fget i =
      match cfg.modindex i1 with
      | Except.error e => ([], Except.error e)
      | Except.ok j => ([j], Except.ok (GetResult.one (fget j))) := by
  unfold getitem
  simp only [hm, he]

/-- Single-index form of `__setitem__`. -/
theorem setitem_single_eq (cfg : TConfig) (fset : PyIndex → PyVal → Option PyErr)
    (i i1 : PyIndex) (value : PyVal)
    (hm : cfg.moduserindex i = Except.ok i1) (he : cfg.iterElems i1 = none) :
    setitem cfg fset i value =
      match cfg.modindex i1 with
      | Except.error e => ([], some e)
      | Except.ok j => ([(j, value)], fset j value) := by
  unfold setitem
  simp only [hm, he]

/-- Single-index form of `__delitem__`. -/
theorem delitem_single_eq (cfg : TConfig) (fdel : PyIndex → Option PyErr)
    (i i1 : PyIndex)
    (hm : cfg.moduserindex i = Except.ok i1) (he : cfg.iterElems i1 = none) :
    delitem cfg fdel i =
      match cfg.modindex i1 with
      | Except.error e => ([], some e)
      | Except.ok j => ([j], fdel j) := by
  unfold delitem
  simp only [hm, he]

/-- Iterable-index form of `__setitem__`: dispatch to `setBroadcast`. -/
theorem setitem_iter_eq (cfg : TConfig) (fset : PyIndex → PyVal → Option PyErr)
    (i i1 : PyIndex) (elems : List Scalar) (value : PyVal)
    (hm : cfg.moduserindex i = Except.ok i1) (he : cfg.iterElems i1 = some elems) :
    setitem cfg fset i value = setBroadcast cfg.modindex fset elems value := by
  unfold setitem
  simp only [hm, he]

/-- The paired loop when every index resolves and the setter never
raises: one call per zipped pair, in the order of the index sequence. -/
theorem setPairs_zip (modindex : PyIndex → Except PyErr PyIndex)
    (fset : PyIndex → PyVal → Option PyErr) (r : Scalar → PyIndex) :
    ∀ (elems : List Scalar) (ys : List PyVal),
      (∀ a ∈ elems, modindex (PyIndex.single a) = Except.ok (r a)) →
      (∀ j v, fset j v = none) →
      setPairs modindex fset (elems.zip ys) = ((elems.map r).zip ys, none)
  | [], ys, _, _ => by cases ys <;> rfl
  | a :: rest, [], _, _ => rfl
  | a :: rest, y :: ys, hr, hf => by
    have h1 : modindex (PyIndex.single a) = Except.ok (r a) :=
      hr a (List.mem_cons_self _ _)
    have ih := setPairs_zip modindex fset r rest ys
      (fun q hq => hr q (List.mem_cons_of_mem _ hq)) hf
    show setPairs modindex fset ((a, y) :: rest.zip ys) =
      ((r a, y) :: (List.map r rest).zip ys, none)
    simp only [setPairs, h1, hf, ih]

/-- The scalar-broadcast loop when every index resolves and the setter
never raises: one call per element with the same value, in order. -/
theorem setScalar_map (modindex : PyIndex → Except PyErr PyIndex)
    (fset : PyIndex → PyVal → Option PyErr) (value : PyVal) (r : Scalar → PyIndex) :
    ∀ (elems : List Scalar),
      (∀ a ∈ elems, modindex (PyIndex.single a) = Except.ok (r a)) →
      (∀ j v, fset j v = none) →
      setScalar modindex fset value elems = (elems.map (fun a => (r a, value)), none)
  | [], _, _ => rfl
  | a :: rest, hr, hf => by
    have h1 : modindex (PyIndex.single a) = Except.ok (r a) :=
      hr a (List.mem_cons_self _ _)
    have ih := setScalar_map modindex fset value r rest
      (fun q hq => hr q (List.mem_cons_of_mem _ hq)) hf
    simp only [setScalar, h1, hf, ih, List.map_cons]

/-! ### Claim theorems -/

/-- C9: the base (unconstrained) Trampoline has `iterable_indices = ()`,
so every index — a single value, a list, a tuple, even a range — is
treated as one single index: exactly one handler call receives it
unchanged, and broadcasting never happens. -/
theorem base_no_broadcast (fget : PyIndex → PyVal)
    (fset : PyIndex → PyVal → Option PyErr) (fdel : PyIndex → Option PyErr)
    (index : PyIndex) (value : PyVal) :
    getitem baseCfg fget index = ([index], Except.ok (GetResult.one (fget index))) ∧
    setitem baseCfg fset index value = ([(index, value)], fset index value) ∧
    delitem baseCfg fdel index = ([index], fdel index) :=
  ⟨rfl, rfl, rfl⟩

/-- C10: `IndexedProperty.__get__` returns the descriptor object itself
when accessed through the class (`obj is None`), and a Bound Accessor
(Trampoline) holding exactly the accessed instance otherwise. -/
theorem descriptor_get_spec {Desc Obj : Type} (self : Desc) (o : Obj) :
    descriptorGet self (none : Option Obj) = Sum.inl self ∧
    descriptorGet self (some o) = Sum.inr { obj := o } ∧
    (Trampoline.mk o).obj = o :=
  ⟨rfl, rfl, rfl⟩

/-- C8: `IndexedProperty.addmethod` rejects the reserved operation names
`__getitem__` / `__setitem__` / `__delitem__` (the read/write/delete
operations) with AttributeError, leaving the registry untouched; any
other name is stored in the registry and can be looked up afterwards. -/
theorem addmethod_spec (tdict : List (String × Nat)) (name : String) (fn : Nat) :
    (name ∈ illegalmethods →
      addmethod illegalmethods tdict name fn = (tdict, some PyErr.attributeError)) ∧
    (name ∉ illegalmethods →
      (addmethod illegalmethods tdict name fn).2 = none ∧
      List.lookup name (addmethod illegalmethods tdict name fn).1 = some fn) := by
  constructor
  · intro h
    simp [addmethod, h]
  · intro h
    simp [addmethod, h, List.lookup]

/-- Witness for C8: `__setitem__` is rejected, `upper` is stored. -/
theorem addmethod_spec_witness :
    addmethod illegalmethods [] "__setitem__" 7 = ([], some PyErr.attributeError) ∧
    (addmethod illegalmethods [] "upper" 8).2 = none ∧
    List.lookup "upper" (addmethod illegalmethods [] "upper" 8).1 = some 8 :=
  ⟨(addmethod_spec [] "__setitem__" 7).1 (by decide),
   (addmethod_spec [] "upper" 8).2 (by decide)⟩

/-- C7: for a ContainerProperty, a single index that is not a member of
the backing container makes read, write and delete all fail with
KeyError (the spec's NotFound), with no handler invocation (empty call
trace); the membership test is against the current `base` on every
call. -/
theorem container_notfound (base : List Scalar) (x : Scalar) (fget : PyIndex → PyVal)
    (fset : PyIndex → PyVal → Option PyErr) (fdel : PyIndex → Option PyErr)
    (value : PyVal) (h : x ∉ base) :
    getitem (containerCfg base) fget (PyIndex.single x) = ([], Except.error PyErr.keyError) ∧
    setitem (containerCfg base) fset (PyIndex.single x) value = ([], some PyErr.keyError) ∧
    delitem (containerCfg base) fdel (PyIndex.single x) = ([], some PyErr.keyError) := by
  have hm : containerModindex base (PyIndex.single x) = Except.error PyErr.keyError := by
    simp [containerModindex, h]
  refine ⟨?_, ?_, ?_⟩
  · rw [getitem_single_eq (containerCfg base) fget (PyIndex.single x) (PyIndex.single x)
      rfl rfl]
    rw [show (containerCfg base).modindex (PyIndex.single x) =
      Except.error PyErr.keyError from hm]
  · rw [setitem_single_eq (containerCfg base) fset (PyIndex.single x) (PyIndex.single x)
      value rfl rfl]
    rw [show (containerCfg base).modindex (PyIndex.single x) =
      Except.error PyErr.keyError from hm]
  · rw [delitem_single_eq (containerCfg base) fdel (PyIndex.single x) (PyIndex.single x)
      rfl rfl]
    rw [show (containerCfg base).modindex (PyIndex.single x) =
      Except.error PyErr.keyError from hm]

/-- Witness for C7: the key `"z"` is not in the container `["a", "b"]`. -/
theorem container_notfound_witness :
    getitem (containerCfg [Scalar.str "a", Scalar.str "b"]) (fun _ => PyVal.nolen 1)
      (PyIndex.single (Scalar.str "z")) = ([], Except.error PyErr.keyError) ∧
    setitem (containerCfg [Scalar.str "a", Scalar.str "b"]) (fun _ _ => none)
      (PyIndex.single (Scalar.str "z")) (PyVal.nolen 5) = ([], some PyErr.keyError) ∧
    delitem (containerCfg [Scalar.str "a", Scalar.str "b"]) (fun _ => none)
      (PyIndex.single (Scalar.str "z")) = ([], some PyErr.keyError) :=
  container_notfound [Scalar.str "a", Scalar.str "b"] (Scalar.str "z")
    (fun _ => PyVal.nolen 1) (fun _ _ => none) (fun _ => none) (PyVal.nolen 5) (by decide)

/-- C1 (amended): for an iterable index set `S` and a sized non-text
value `V`, when `len(V) = len(S)` the write calls the setter once per
pair, pairing the i-th element of `S` with the i-th element of `V`, in
the order in which the elements appear in `S` (ascending exactly when
`S` itself is ascending); when the lengths differ it fails with
ValueError (the spec's LengthMismatch) and performs no setter call at
all.  Hypotheses: the index set resolves element-wise through
`modindex` and the setter itself does not raise. -/
theorem broadcast_paired_write (cfg : TConfig) (fset : PyIndex → PyVal → Option PyErr)
    (index index1 : PyIndex) (elems xs : List Scalar) (r : Scalar → PyIndex)
    (hm : cfg.moduserindex index = Except.ok index1)
    (he : cfg.iterElems index1 = some elems)
    (hr : ∀ a ∈ elems, cfg.modindex (PyIndex.single a) = Except.ok (r a))
    (hf : ∀ j v, fset j v = none) :
    (xs.length = elems.length →
      setitem cfg fset index (PyVal.seq xs) =
        ((elems.map r).zip (xs.map Scalar.toVal), none)) ∧
    (xs.length ≠ elems.length →
      setitem cfg fset index (PyVal.seq xs) = ([], some PyErr.valueError)) := by
  rw [setitem_iter_eq cfg fset index index1 elems (PyVal.seq xs) hm he]
  constructor
  · intro hlen
    have hz := setPairs_zip cfg.modindex fset r elems (xs.map Scalar.toVal) hr hf
    have hne : ¬(xs.length ≠ elems.length) := by omega
    simp only [setBroadcast]
    rw [if_neg hne, hz]
  · intro hlen
    simp only [setBroadcast]
    rw [if_pos hlen]

/-- Witness for C1: on the range accessor over `[0, 5)`, writing
`[7, 9]` to the index list `[1, 3]` performs exactly the paired calls
`(1, 7), (3, 9)`; writing the one-element value `[7]` to the same index
list raises ValueError with no setter call. -/
theorem broadcast_paired_write_witness :
    setitem (rangeCfg 0 5) (fun _ _ => none)
      (PyIndex.ilist [Scalar.int 1, Scalar.int 3])
      (PyVal.seq [Scalar.int 7, Scalar.int 9]) =
      ([(PyIndex.single (Scalar.int 1), PyVal.nolen 7),
        (PyIndex.single (Scalar.int 3), PyVal.nolen 9)], none) ∧
    setitem (rangeCfg 0 5) (fun _ _ => none)
      (PyIndex.ilist [Scalar.int 1, Scalar.int 3]) (PyVal.seq [Scalar.int 7]) =
      ([], some PyErr.valueError) := by
  have h := broadcast_paired_write (rangeCfg 0 5) (fun _ _ => none)
    (PyIndex.ilist [Scalar.int 1, Scalar.int 3])
    (PyIndex.ilist [Scalar.int 1, Scalar.int 3])
    [Scalar.int 1, Scalar.int 3] [Scalar.int 7, Scalar.int 9]
    (fun a => PyIndex.single a) rfl rfl (by decide) (fun _ _ => rfl)
  have h2 := broadcast_paired_write (rangeCfg 0 5) (fun _ _ => none)
    (PyIndex.ilist [Scalar.int 1, Scalar.int 3])
    (PyIndex.ilist [Scalar.int 1, Scalar.int 3])
    [Scalar.int 1, Scalar.int 3] [Scalar.int 7]
    (fun a => PyIndex.single a) rfl rfl (by decide) (fun _ _ => rfl)
  exact ⟨(h.1 (by decide)).trans (by decide), h2.2 (by decide)⟩

/-- Counterexample to C1 as stated: with the unsorted index list
`S = [1, 0]` and `V = [10, 20]`, the code pairs positionally and calls
the setter at index 1 first, then index 0 — not in ascending order of
`S` (which would call at 0 first). -/
theorem broadcast_order_counterexample :
    setitem (rangeCfg 0 5) (fun _ _ => none)
      (PyIndex.ilist [Scalar.int 1, Scalar.int 0])
      (PyVal.seq [Scalar.int 10, Scalar.int 20]) =
      ([(PyIndex.single (Scalar.int 1), PyVal.nolen 10),
        (PyIndex.single (Scalar.int 0), PyVal.nolen 20)], none) ∧
    [(PyIndex.single (Scalar.int 1), PyVal.nolen 10),
     (PyIndex.single (Scalar.int 0), PyVal.nolen 20)] ≠
    [(PyIndex.single (Scalar.int 0), PyVal.nolen 20),
     (PyIndex.single (Scalar.int 1), PyVal.nolen 10)] := by
  constructor
  · decide
  · decide

/-- C4 (amended): for an iterable index set `S` and a value that is text
or has no length, the write broadcasts the very same value to every
element of `S`, one setter call per element, in the order in which the
elements appear in `S` (descending for a negative-step selector), for
any size of `S` — in particular a text value is broadcast as a scalar
even when its length equals `len(S)`. -/
theorem broadcast_scalar_write (cfg : TConfig) (fset : PyIndex → PyVal → Option PyErr)
    (index index1 : PyIndex) (elems : List Scalar) (r : Scalar → PyIndex) (value : PyVal)
    (hm : cfg.moduserindex index = Except.ok index1)
    (he : cfg.iterElems index1 = some elems)
    (hr : ∀ a ∈ elems, cfg.modindex (PyIndex.single a) = Except.ok (r a))
    (hf : ∀ j v, fset j v = none)
    (hv : ∀ xs, value ≠ PyVal.seq xs) :
    setitem cfg fset index value = (elems.map (fun a => (r a, value)), none) := by
  rw [setitem_iter_eq cfg fset index index1 elems value hm he]
  have hs := setScalar_map cfg.modindex fset value r elems hr hf
  cases value with
  | text s => simp only [setBroadcast, hs, List.nil_append]
  | nolen n => simp only [setBroadcast, hs, List.nil_append]
  | seq xs => exact absurd rfl (hv xs)

/-- Witness for C4: on the range accessor over `[0, 5)`, writing the
3-character text `"abc"` to the 3-element index list `[0, 1, 2]` calls
the setter three times with the whole string (scalar broadcast despite
the matching lengths). -/
theorem broadcast_scalar_write_witness :
    setitem (rangeCfg 0 5) (fun _ _ => none)
      (PyIndex.ilist [Scalar.int 0, Scalar.int 1, Scalar.int 2]) (PyVal.text "abc") =
      ([(PyIndex.single (Scalar.int 0), PyVal.text "abc"),
        (PyIndex.single (Scalar.int 1), PyVal.text "abc"),
        (PyIndex.single (Scalar.int 2), PyVal.text "abc")], none) :=
  (broadcast_scalar_write (rangeCfg 0 5) (fun _ _ => none)
    (PyIndex.ilist [Scalar.int 0, Scalar.int 1, Scalar.int 2])
    (PyIndex.ilist [Scalar.int 0, Scalar.int 1, Scalar.int 2])
    [Scalar.int 0, Scalar.int 1, Scalar.int 2]
    (fun a => PyIndex.single a) (PyVal.text "abc") rfl rfl (by decide)
    (fun _ _ => rfl) (fun xs h => PyVal.noConfusion h)).trans (by decide)

/-- Counterexample to C4 as stated: on the range accessor over `[0, 5)`,
the negative-step selector `slice(2, 0, -1)` expands to the descending
index set `[2, 1]`, and broadcasting the text `"x"` calls the setter at
index 2 first, then index 1 — not in ascending order. -/
theorem scalar_order_counterexample :
    setitem (rangeCfg 0 5) (fun _ _ => none)
      (PyIndex.islice (some 2) (some 0) (some (-1))) (PyVal.text "x") =
      ([(PyIndex.single (Scalar.int 2), PyVal.text "x"),
        (PyIndex.single (Scalar.int 1), PyVal.text "x")], none) ∧
    [(PyIndex.single (Scalar.int 2), PyVal.text "x"),
     (PyIndex.single (Scalar.int 1), PyVal.text "x")] ≠
    [(PyIndex.single (Scalar.int 1), PyVal.text "x"),
     (PyIndex.single (Scalar.int 2), PyVal.text "x")] := by
  constructor
  · decide
  · decide

/-- C3 evaluated at its failing input: broadcasting the write
`accessor[[0, 1]] = [7, 8]` with a setter that raises TypeError when
passed the value 7.  The claim (and the spec) say the handler's error
propagates unchanged with no further handler calls; instead, the
`except TypeError` wrapped around the paired loop in
`Trampoline.__setitem__` catches it and re-dispatches a scalar
broadcast of the whole list to every index — the setter runs two more
times with the list `[7, 8]` as the value, and the handler's exception
is swallowed entirely (the write reports success). -/
theorem setter_typeerror_swallowed :
    setitem (rangeCfg 0 2)
      (fun _ v => if v = PyVal.nolen 7 then some PyErr.typeError else none)
      (PyIndex.ilist [Scalar.int 0, Scalar.int 1])
      (PyVal.seq [Scalar.int 7, Scalar.int 8]) =
      ([(PyIndex.single (Scalar.int 0), PyVal.nolen 7),
        (PyIndex.single (Scalar.int 0), PyVal.seq [Scalar.int 7, Scalar.int 8]),
        (PyIndex.single (Scalar.int 1), PyVal.seq [Scalar.int 7, Scalar.int 8])],
       none) := by decide

/-- For a non-negative range, `_boundindex` sends the index -1 and the
index `stop - 1` to the same place. -/
theorem boundindex_neg_one (a b : Int) (h0 : 0 ≤ a) (h1 : a ≤ b) :
    boundindex a b (-1) = boundindex a b (b - 1) := by
  simp only [boundindex, negativeindex]
  split_ifs <;> omega

/-- For a non-negative range, `modindex` treats -1 and `stop - 1`
identically. -/
theorem rangeModindex_neg_wrap (a b : Int) (h0 : 0 ≤ a) (h1 : a ≤ b) :
    rangeModindex a b (PyIndex.single (Scalar.int (-1))) =
      rangeModindex a b (PyIndex.single (Scalar.int (b - 1))) := by
  simp only [rangeModindex, boundindex_neg_one a b h0 h1]

/-- For a range with a negative lower bound, -1 passes through the
wraparound unchanged and is in bounds exactly when `-1 < stop`. -/
theorem rangeModindex_neg_literal (a b : Int) (ha : a < 0) :
    rangeModindex a b (PyIndex.single (Scalar.int (-1))) =
      (if -1 < b then Except.ok (PyIndex.single (Scalar.int (-1)))
       else Except.error PyErr.indexError) := by
  simp only [rangeModindex, boundindex, negativeindex]
  split_ifs <;> first | rfl | omega

/-- C6: on a range accessor whose bounds are non-negative (`0 ≤ a ≤ b`),
reading index -1 behaves exactly like reading index `b - 1` (end-relative
wraparound); on a range whose lower bound is negative, -1 is taken
literally: the read hands -1 itself to the getter when `-1 < b`, and
fails with IndexError (the spec's OutOfRange) when `b ≤ -1`. -/
theorem range_negative_index (a b : Int) (fget : PyIndex → PyVal) :
    (0 ≤ a → a ≤ b →
      getitem (rangeCfg a b) fget (PyIndex.single (Scalar.int (-1))) =
        getitem (rangeCfg a b) fget (PyIndex.single (Scalar.int (b - 1)))) ∧
    (a < 0 → -1 < b →
      getitem (rangeCfg a b) fget (PyIndex.single (Scalar.int (-1))) =
        ([PyIndex.single (Scalar.int (-1))],
         Except.ok (GetResult.one (fget (PyIndex.single (Scalar.int (-1))))))) ∧
    (a < 0 → a ≤ b → b ≤ -1 →
      getitem (rangeCfg a b) fget (PyIndex.single (Scalar.int (-1))) =
        ([], Except.error PyErr.indexError)) := by
  have hshape : ∀ n : Int,
      getitem (rangeCfg a b) fget (PyIndex.single (Scalar.int n)) =
        match rangeModindex a b (PyIndex.single (Scalar.int n)) with
        | Except.error e => ([], Except.error e)
        | Except.ok j => ([j], Except.ok (GetResult.one (fget j))) := by
    intro n
    rw [getitem_single_eq (rangeCfg a b) fget (PyIndex.single (Scalar.int n))
      (PyIndex.single (Scalar.int n)) rfl rfl]
    rfl
  refine ⟨?_, ?_, ?_⟩
  · intro h0 h1
    rw [hshape, hshape, rangeModindex_neg_wrap a b h0 h1]
  · intro ha hb
    rw [hshape, rangeModindex_neg_literal a b ha, if_pos hb]
  · intro ha hab hb
    rw [hshape, rangeModindex_neg_literal a b ha, if_neg (by omega)]

/-- Witness for C6: over `[1, 11)`, `read(-1)` equals `read(10)`; over
`[-5, 3)`, `read(-1)` hands -1 itself to the getter; over `[-5, -2)`,
`read(-1)` fails with IndexError. -/
theorem range_negative_index_witness :
    getitem (rangeCfg 1 11) (fun _ => PyVal.nolen 0) (PyIndex.single (Scalar.int (-1))) =
      getitem (rangeCfg 1 11) (fun _ => PyVal.nolen 0)
        (PyIndex.single (Scalar.int (11 - 1))) ∧
    getitem (rangeCfg (-5) 3) (fun _ => PyVal.nolen 0) (PyIndex.single (Scalar.int (-1))) =
      ([PyIndex.single (Scalar.int (-1))],
       Except.ok (GetResult.one (PyVal.nolen 0))) ∧
    getitem (rangeCfg (-5) (-2)) (fun _ => PyVal.nolen 0)
      (PyIndex.single (Scalar.int (-1))) = ([], Except.error PyErr.indexError) :=
  ⟨(range_negative_index 1 11 (fun _ => PyVal.nolen 0)).1 (by decide) (by decide),
   (range_negative_index (-5) 3 (fun _ => PyVal.nolen 0)).2.1 (by decide) (by decide),
   (range_negative_index (-5) (-2) (fun _ => PyVal.nolen 0)).2.2 (by decide) (by decide)
     (by decide)⟩

/-- Characterisation of the element count of Python's `range`: `k` is a
valid position exactly when `step * k` has not yet reached the
distance. -/
theorem rangeCount_lt_iff (d s k : Nat) (hs : 0 < s) :
    k < rangeCount d s ↔ s * k < d := by
  unfold rangeCount
  rw [Nat.lt_iff_add_one_le, Nat.le_div_iff_mul_le hs]
  have h1 : (k + 1) * s = s * k + s := by ring
  rw [h1]
  generalize s * k = m
  omega

/-- The `k`-th element of `range(b, e, s)` is `b + s * k`. -/
theorem rangeList_getElem (b e s : Int) (k : Nat) (h : k < (rangeList b e s).length) :
    (rangeList b e s)[k] = b + s * (k : Int) := by
  unfold rangeList at *
  split_ifs at * with h1 h2
  · simp_all
  · simp_all
  · rw [if_neg h1, if_neg h2] at h
    simp at h

/-- For a positive step, every element of `range(b, e, s)` lies in
`[b, e)` — the sequence stops strictly before `e`. -/
theorem rangeList_mem_pos (b e s n : Int) (hs : 0 < s) (hn : n ∈ rangeList b e s) :
    b ≤ n ∧ n < e := by
  unfold rangeList at hn
  rw [if_pos hs] at hn
  simp only [List.mem_map, List.mem_range] at hn
  obtain ⟨k, hk, rfl⟩ := hn
  rw [rangeCount_lt_iff _ _ _ (by omega)] at hk
  have hcast : ((s.toNat * k : Nat) : Int) < (((e - b).toNat : Nat) : Int) :=
    Int.ofNat_lt.mpr hk
  have hs1 : ((s.toNat : Nat) : Int) = s := Int.toNat_of_nonneg (le_of_lt hs)
  have hmax : (((e - b).toNat : Nat) : Int) = max (e - b) 0 := Int.toNat_eq_max _
  push_cast at hcast
  rw [hs1, hmax] at hcast
  have hk0 : (0 : Int) ≤ s * (k : Int) := mul_nonneg (le_of_lt hs) (Int.natCast_nonneg k)
  constructor
  · linarith
  · rcases le_or_lt (e - b) 0 with hd | hd
    · rw [max_eq_right hd] at hcast
      linarith
    · rw [max_eq_left (le_of_lt hd)] at hcast
      linarith

/-- For a negative step, every element of `range(b, e, s)` lies in
`(e, b]` — the descending sequence stops strictly before `e`. -/
theorem rangeList_mem_neg (b e s n : Int) (hs : s < 0) (hn : n ∈ rangeList b e s) :
    e < n ∧ n ≤ b := by
  unfold rangeList at hn
  rw [if_neg (by omega), if_pos hs] at hn
  simp only [List.mem_map, List.mem_range] at hn
  obtain ⟨k, hk, rfl⟩ := hn
  rw [rangeCount_lt_iff _ _ _ (by omega)] at hk
  have hcast : (((-s).toNat * k : Nat) : Int) < (((b - e).toNat : Nat) : Int) :=
    Int.ofNat_lt.mpr hk
  have hs1 : (((-s).toNat : Nat) : Int) = -s := Int.toNat_of_nonneg (by omega)
  have hmax : (((b - e).toNat : Nat) : Int) = max (b - e) 0 := Int.toNat_eq_max _
  push_cast at hcast
  rw [hs1, hmax] at hcast
  have hk0 : (0 : Int) ≤ (-s) * (k : Int) := mul_nonneg (by omega) (Int.natCast_nonneg k)
  have hrw : (-s) * (k : Int) = -(s * (k : Int)) := by ring
  rw [hrw] at hcast hk0
  constructor
  · rcases le_or_lt (b - e) 0 with hd | hd
    · rw [max_eq_right hd] at hcast
      linarith
    · rw [max_eq_left (le_of_lt hd)] at hcast
      linarith
  · linarith

/-- `_boundindex` is exactly "clamp into `[start, stop]` after
wraparound" for a well-formed range (`start ≤ stop`, enforced by the
`RangeProperty` constructor). -/
theorem boundindex_eq_clamp (start stop idx : Int) (h : start ≤ stop) :
    boundindex start stop idx = min stop (max start (negativeindex start stop idx)) := by
  simp only [boundindex]
  split_ifs <;> omega

/-- C5: `moduserindex` of a range accessor over `[start, stop)` expands
a slice `(b, e, s)` as follows — a zero step fails with ValueError (the
spec's InvalidStep); otherwise an absent begin defaults to `start`, an
absent end to `stop`, an absent step to 1, explicit endpoints are
wrapped then clamped into `[start, stop]` (so arbitrarily out-of-range
endpoints never error), and the result is the concrete integer sequence
whose `k`-th element is `begin + step * k`, stopping strictly before
`end` (from above for a negative step).  Every non-slice index passes
through unchanged. -/
theorem range_selector_expansion (start stop : Int) (hss : start ≤ stop) :
    (∀ b e, rangeModuserindex start stop (PyIndex.islice b e (some 0)) =
      Except.error PyErr.valueError) ∧
    (∀ b e s, s ≠ some 0 →
      rangeModuserindex start stop (PyIndex.islice b e s) =
        Except.ok (PyIndex.irange (rangeList
          (b.elim start (fun x => min stop (max start (negativeindex start stop x))))
          (e.elim stop (fun x => min stop (max start (negativeindex start stop x))))
          (s.getD 1)))) ∧
    (∀ b e s : Int, ∀ k : Nat, ∀ h : k < (rangeList b e s).length,
      (rangeList b e s)[k] = b + s * (k : Int)) ∧
    (∀ b e s n : Int, 0 < s → n ∈ rangeList b e s → b ≤ n ∧ n < e) ∧
    (∀ b e s n : Int, s < 0 → n ∈ rangeList b e s → e < n ∧ n ≤ b) ∧
    (∀ a, rangeModuserindex start stop (PyIndex.single a) =
      Except.ok (PyIndex.single a)) ∧
    (∀ xs, rangeModuserindex start stop (PyIndex.ilist xs) =
      Except.ok (PyIndex.ilist xs)) ∧
    (∀ xs, rangeModuserindex start stop (PyIndex.ituple xs) =
      Except.ok (PyIndex.ituple xs)) ∧
    (∀ ns, rangeModuserindex start stop (PyIndex.irange ns) =
      Except.ok (PyIndex.irange ns)) := by
  refine ⟨?_, ?_, rangeList_getElem, rangeList_mem_pos, rangeList_mem_neg,
    fun a => rfl, fun xs => rfl, fun xs => rfl, fun ns => rfl⟩
  · intro b e
    simp [rangeModuserindex]
  · intro b e s hs
    cases s with
    | none =>
      cases b <;> cases e <;>
        simp [rangeModuserindex, Option.elim, Option.getD,
          boundindex_eq_clamp _ _ _ hss]
    | some x =>
      have hx : x ≠ 0 := fun hx0 => hs (by rw [hx0])
      cases b <;> cases e <;>
        simp [rangeModuserindex, Option.elim, Option.getD,
          boundindex_eq_clamp _ _ _ hss, hx]

/-- Witness for C5: over `[1, 11)`, a zero-step slice raises ValueError,
the far-out-of-range slice `slice(-100, 99)` succeeds with clamped
endpoints, and a plain single index passes through `moduserindex`
untouched. -/
theorem range_selector_expansion_witness :
    rangeModuserindex 1 11 (PyIndex.islice none none (some 0)) =
      Except.error PyErr.valueError ∧
    rangeModuserindex 1 11 (PyIndex.islice (some (-100)) (some 99) none) =
      Except.ok (PyIndex.irange (rangeList
        ((some (-100 : Int)).elim 1 (fun x => min 11 (max 1 (negativeindex 1 11 x))))
        ((some (99 : Int)).elim 11 (fun x => min 11 (max 1 (negativeindex 1 11 x))))
        ((none : Option Int).getD 1))) ∧
    rangeModuserindex 1 11 (PyIndex.single (Scalar.int 3)) =
      Except.ok (PyIndex.single (Scalar.int 3)) :=
  ⟨(range_selector_expansion 1 11 (by decide)).1 none none,
   (range_selector_expansion 1 11 (by decide)).2.1 (some (-100)) (some 99) none
     (by decide),
   (range_selector_expansion 1 11 (by decide)).2.2.2.2.2.1 (Scalar.int 3)⟩

/-- C2 evaluated at its failing input: on the range accessor over
`[5, 10)` the single index 2 lies below the range, so by the claim (and
by `_boundindex`'s own docstring, which reserves clipping for slices)
the read should raise IndexError with no handler call.  Instead
`RangeProperty._Trampoline.modindex` routes single indices through
`_boundindex`, which clips 2 up to the lower bound 5: the getter is
invoked at index 5 and the read succeeds. -/
theorem single_index_clipped_below_start :
    getitem (rangeCfg 5 10)
      (fun j => match j with
        | PyIndex.single (Scalar.int n) => PyVal.nolen (100 + n)
        | _ => PyVal.nolen 0)
      (PyIndex.single (Scalar.int 2)) =
      ([PyIndex.single (Scalar.int 5)],
       Except.ok (GetResult.one (PyVal.nolen 105))) := by decide

end Ixp
